import Mathlib

/-!
Verification development for the zest test-execution framework
(zsimpson/zest).  The definitions below are shallow embeddings of the
Python source under zest/: the multi-process runner
(zest_runner_multi_thread.py), the legacy stand-alone runner
(zest_runner.py), and the single-thread runner
(zest_runner_single_thread.py).  Parts of the repository that the
runners call but whose source is not in the verified tree (the
execution engine zest.py, offering zest.do, zest.reset and the
ZestResult serialization) are modelled from the specification and are
marked as such in their doc comments.
-/

namespace Zest

/-- A ResultRecord: the life-cycle event emitted at each node start and
node stop by the execution engine.  Fields follow the spec data model
and the uses visible in the runner sources (full_name, is_running,
error, elapsed, skip, pid, worker_i, call_stack). -/
structure ZestResult where
  full_name : String
  is_running : Bool
  error : Option String
  elapsed : Nat
  skip : Option String
  pid : Nat
  worker_i : Option Nat
  call_stack : List String
deriving DecidableEq, Repr

/-- Modelled from the spec: the canonical newline-free line encoding of a
ZestResult (ZestResult.dumps lives in zest/zest.py which is not under
the verified sources).  The encoding is a concrete self-describing text
form; the runners only ever treat it as a plain line. -/
def ZestResult.dumps (r : ZestResult) : String :=
  String.intercalate "|" [r.full_name, if r.is_running then "1" else "0", toString r.pid]

/-- Split a character list at every pipe separator. -/
def splitPipe : List Char → List (List Char)
  | [] => [[]]
  | c :: rest =>
    match splitPipe rest with
    | [] => if c = '|' then [[], [c]] else [[c]]
    | h :: t => if c = '|' then [] :: h :: t else (c :: h) :: t

/-- One decimal digit of the pid field. -/
def parseDigit (c : Char) : Option Nat :=
  if '0' ≤ c ∧ c ≤ '9' then some (c.toNat - '0'.toNat) else none

/-- Accumulating decimal parse of the pid field. -/
def parseNatAux : List Char → Nat → Option Nat
  | [], acc => some acc
  | c :: rest, acc =>
    match parseDigit c with
    | none => none
    | some d => parseNatAux rest (acc * 10 + d)

/-- Decimal parse of a non-empty digit string. -/
def parseNatChars : List Char → Option Nat
  | [] => none
  | c :: rest => parseNatAux (c :: rest) 0

/-- Modelled from the spec: the decoder of the canonical line encoding
(ZestResult.loads in zest/zest.py, not under the verified sources).  A
line that does not conform to the encoding is a decode failure. -/
def ZestResult.loads (s : String) : Except String ZestResult :=
  match splitPipe s.data with
  | [fn, runFlag, pidStr] =>
    match (if runFlag = ['1'] then some true
           else if runFlag = ['0'] then some false else none),
          parseNatChars pidStr with
    | some b, some p =>
      Except.ok
        { full_name := String.mk fn, is_running := b, error := none, elapsed := 0,
          skip := none, pid := p, worker_i := none, call_stack := [] }
    | _, _ => Except.error ("Malformed zest result line: " ++ s)
  | _ => Except.error ("Malformed zest result line: " ++ s)

/-- Embedding of read_zest_result_line (zest_runner_multi_thread.py,
lines 35 to 44).  The source loops readline, breaks on an empty read
(end of file), and yields ZestResult.loads of every line with no
handler around the decode; a decode failure therefore propagates to the
caller of the generator.  The file is modelled as its list of lines and
the generator as the list of decoded records. -/
def read_zest_result_line : List String → Except String (List ZestResult)
  | [] => Except.ok []
  | line :: rest =>
    if line = "" then Except.ok []
    else
      match ZestResult.loads line with
      | Except.error e => Except.error e
      | Except.ok r =>
        match read_zest_result_line rest with
        | Except.error e => Except.error e
        | Except.ok rs => Except.ok (r :: rs)

/-- A framework-level fault as it travels over the result queue: the
worker attaches the formatted traceback to the exception object
(e._formatted) before enqueuing it. -/
structure ExcInfo where
  message : String
  formatted : Option (List String)
deriving DecidableEq, Repr

/-- Model of traceback.format_exception as used at
zest_runner_multi_thread.py lines 97 to 99: a concrete formatted-frame
list for the given exception message. -/
def format_exception (msg : String) : List String :=
  ["Traceback (most recent call last):", msg]

/-- An item on the interprocess result queue: either a ZestResult or an
exception enqueued as an error sentinel by a crashed worker. -/
inductive QItem where
  | res (r : ZestResult)
  | exc (e : ExcInfo)
deriving DecidableEq, Repr

/-- Insertion-ordered association list lookup: the model of dict.get on
pid_to_worker_i (Python dicts preserve insertion order and the source
uses len of the dict as the next index). -/
def assocLookup : List (Nat × Nat) → Nat → Option Nat
  | [], _ => none
  | (a, b) :: rest, k => if a = k then some b else assocLookup rest k

/-- Coordinator state of ZestRunnerMultiThread as visible to poll
(zest_runner_multi_thread.py, fields set in the constructor at lines
216 to 226): the lazily discovered pid-to-slot map, the per-slot worker
status array, the aggregate results list, the optional user callback
(modelled by a presence flag plus the trace of records handed to it),
the asynchronous starmap handle (none before run, some ready after),
and the pool with its terminated flag. -/
structure MTState where
  pid_to_worker_i : List (Nat × Nat)
  worker_status : List (Option ZestResult)
  results : List ZestResult
  has_callback : Bool
  callback_log : List ZestResult
  map_results : Option Bool
  pool : Bool
  pool_terminated : Bool
deriving DecidableEq, Repr

/-- The slot index that poll assigns to a dequeued record: the existing
binding of its pid if the pid has been seen, else the size of the map
(the next free slot), exactly as at zest_runner_multi_thread.py lines
149 to 152. -/
def new_worker_index (st : MTState) (r : ZestResult) : Nat :=
  (assocLookup st.pid_to_worker_i r.pid).getD st.pid_to_worker_i.length

/-- One iteration of the drain loop body in poll for a ZestResult item
(zest_runner_multi_thread.py lines 148 to 158): bind an unseen pid to
the next free slot, stamp the record with its worker index, store it in
worker_status at that index, append it to results when it is a stop
event, and hand it to the callback when a callback was supplied. -/
def handle_result (st : MTState) (r : ZestResult) : MTState :=
  let st1 :=
    match assocLookup st.pid_to_worker_i r.pid with
    | none =>
      { st with pid_to_worker_i := st.pid_to_worker_i ++ [(r.pid, st.pid_to_worker_i.length)] }
    | some _ => st
  let wi := (assocLookup st1.pid_to_worker_i r.pid).getD 0
  let r1 := { r with worker_i := some wi }
  let st2 := { st1 with worker_status := st1.worker_status.set wi (some r1) }
  let st3 := if r1.is_running then st2 else { st2 with results := st2.results ++ [r1] }
  if st3.has_callback then { st3 with callback_log := st3.callback_log ++ [r1] } else st3

/-- The drain loop of poll (zest_runner_multi_thread.py lines 143 to
160): get_nowait until the queue is empty; a dequeued Exception is
raised immediately (not caught by the Empty handler, so it escapes
poll), a dequeued ZestResult is processed by the loop body.  The items
the loop dequeues before observing Empty are modelled as a list. -/
def drain : MTState → List QItem → Except ExcInfo MTState
  | st, [] => Except.ok st
  | _, QItem.exc e :: _ => Except.error e
  | st, QItem.res r :: rest => drain (handle_result st r) rest

/-- Embedding of ZestRunnerMultiThread.poll (zest_runner_multi_thread.py
lines 118 to 170).  On request_stop with a live pool the pool is
terminated; then the queue is drained without blocking; finally the run
is declared complete (False returned, after pool.join) exactly when
map_results exists and is ready and the queue reports empty.  Because
the queue is concurrent, the items seen by the final queue.empty check
are passed separately (late): they are the items that arrived after the
drain loop observed Empty. -/
def poll (st : MTState) (request_stop : Bool) (incoming late : List QItem) :
    Except ExcInfo (MTState × Bool) :=
  let st0 := if request_stop ∧ st.pool then { st with pool_terminated := true } else st
  match drain st0 incoming with
  | Except.error e => Except.error e
  | Except.ok st1 =>
    if st1.map_results = some true ∧ late = [] then Except.ok (st1, false)
    else Except.ok (st1, true)

/-! ### Worker side of the multi-process runner -/

/-- The shared output folder as a map from file name to file content,
where the content is the ordered list of chunks written (each chunk is
one serialized record line, written and flushed immediately). -/
def FileSys := List (String × List String)

/-- Read a file from the modelled folder. -/
def fsGet : List (String × List String) → String → Option (List String)
  | [], _ => none
  | (k0, v0) :: rest, k => if k0 = k then some v0 else fsGet rest k

/-- Write a file in the modelled folder, replacing any existing content
under the same name. -/
def fsSet : List (String × List String) → String → List String → List (String × List String)
  | [], k, v => [(k, v)]
  | (k0, v0) :: rest, k, v =>
    if k0 = k then (k, v) :: rest else (k0, v0) :: fsSet rest k v

/-- Append one flushed chunk to a file of the modelled folder. -/
def fsAppendChunk (fs : List (String × List String)) (k : String) (chunk : String) :
    List (String × List String) :=
  fsSet fs k ((fsGet fs k).getD [] ++ [chunk])

/-- Modelled from the spec: the per-process engine globals that
zest.reset re-creates (zest.py is not under the verified sources).
reset installs fresh run accounting together with the shuffle and
bypass overrides of the incoming work order. -/
structure ZestGlobals where
  disable_shuffle : Bool
  bypass_skip : List String
  call_stack : List String
  call_log : List String
deriving DecidableEq, Repr

/-- Modelled from the spec: zest.reset(disable_shuffle, bypass_skip)
returns a fresh globals instance regardless of any prior state. -/
def zest_reset (ds : Bool) (bs : List String) : ZestGlobals :=
  { disable_shuffle := ds, bypass_skip := bs, call_stack := [], call_log := [] }

/-- What one invocation of zest.do inside a worker did: either it
returned normally after emitting the listed records through the
callbacks, or it raised a framework-level fault after emitting a
prefix of them.  zest.do itself lives in zest.py (not under the
verified sources), so the worker is verified against every possible
behavior of it. -/
inductive EngineOutcome where
  | normal (emitted : List ZestResult)
  | raised (emitted : List ZestResult) (message : String)
deriving DecidableEq, Repr

/-- The records the engine emitted before returning or raising. -/
def emitted_of : EngineOutcome → List ZestResult
  | EngineOutcome.normal em => em
  | EngineOutcome.raised em _ => em

/-- Observable effects of one _do_work_order call: the globals installed
before the engine ran, the event-log file name, the folder after the
run, whether the event stream was closed, the queue items put, and the
returned value. -/
structure WorkerOut where
  globals_at_run : ZestGlobals
  file_name : String
  fs_out : List (String × List String)
  file_closed : Bool
  queue_out : List QItem
  ret : Option ZestResult
deriving DecidableEq, Repr

/-- Embedding of _do_work_order (zest_runner_multi_thread.py lines 47
to 105).  The worker resets the engine globals (line 57, discarding the
incoming state gl), opens output_folder/root_name.evt in wb mode with
no buffering (line 59, truncating any stale file), and runs zest.do for
the one root.  The event callback writes each emitted record as a
serialized newline-terminated flushed line to the event stream and puts
the record on the shared queue, remembering it as the value to return
(lines 71 to 87).  An exception escaping zest.do gets the formatted
traceback attached and is put on the queue instead of propagating
(lines 96 to 100); the finally block closes the stream on both paths
(lines 102 to 103) and the last emitted record (or None) is returned
(line 105). -/
def _do_work_order (root_name output_folder : String) (disable_shuffle : Bool)
    (bypass_skip : List String) (gl : ZestGlobals) (fs : List (String × List String))
    (outcome : EngineOutcome) : WorkerOut :=
  let _ := gl
  let gl1 := zest_reset disable_shuffle bypass_skip
  let fname := output_folder ++ "/" ++ root_name ++ ".evt"
  let fs1 := fsSet fs fname []
  let em := emitted_of outcome
  let fs2 := em.foldl (fun acc r => fsAppendChunk acc fname (ZestResult.dumps r ++ "\n")) fs1
  let q :=
    em.map QItem.res ++
      match outcome with
      | EngineOutcome.normal _ => []
      | EngineOutcome.raised _ e =>
        [QItem.exc { message := e, formatted := some (format_exception e) }]
  { globals_at_run := gl1, file_name := fname, fs_out := fs2, file_closed := true,
    queue_out := q, ret := em.getLast? }

/-! ### Execution engine (modelled from the spec) and the legacy runner -/

/-- A discovered test node: dot-qualified full name, skip reasons,
whether its body raises a test-body failure, and its children. -/
inductive TestNode where
  | node (full_name : String) (skip_reasons : List String) (body_error : Option String)
      (children : List TestNode)

/-- Run-scoped engine accounting (the RunState of the spec data model):
call_stack, call_log, call_errors, call_warnings. -/
structure RunState where
  call_stack : List String
  call_log : List String
  call_errors : List (String × List String)
  call_warnings : List String
deriving DecidableEq, Repr

/-- A fresh RunState, as installed by zest.reset at the start of each
run. -/
def RunState.fresh : RunState :=
  { call_stack := [], call_log := [], call_errors := [], call_warnings := [] }

/-- Per-run engine policy: the allow list (none means run everything),
the bypass set for skip annotations, and the shuffle override. -/
structure EngineCtx where
  allow_to_run : Option (List String)
  bypass_skip : List String
  disable_shuffle : Bool
deriving DecidableEq, Repr

/-- The dot-separated ancestor-qualified forms of a full name, from the
root segment up to the full name itself. -/
def dot_ancestors (fn : String) : List String :=
  let parts := fn.splitOn "."
  (List.range parts.length).map (fun i => String.intercalate "." (parts.take (i + 1)))

/-- Modelled from the spec (section 4.1 step 2, zest.py is not under the
verified sources): a node is skipped when it carries skip reasons and is
not named in bypass_skip, or when an allow list is set and neither its
full name nor any ancestor-qualified form of it is a member. -/
def isSkipped (ctx : EngineCtx) (fn : String) (skips : List String) : Bool :=
  (!skips.isEmpty && !(ctx.bypass_skip.contains fn)) ||
    (match ctx.allow_to_run with
     | none => false
     | some allowed => !((dot_ancestors fn).any (fun p => allowed.contains p)))

/-- The start record the engine emits when a node is entered. -/
def startRecord (fn : String) (stack : List String) : ZestResult :=
  { full_name := fn, is_running := true, error := none, elapsed := 0,
    skip := none, pid := 0, worker_i := none, call_stack := stack }

mutual
/-- Modelled from the spec: one engine step of zest.do (section 4.1,
zest.py is not under the verified sources).  Push the full name on
call_stack and emit a start record; a skipped node emits start and stop
records with skip populated, never runs its body and never recurses; an
executable node records a test-body failure in call_errors, runs its
children, then pops the stack, appends to call_log and emits the stop
record.  Sibling order is taken as given (the per-run pseudo-random
permutation, or declaration order under disable_shuffle, is a fixed
reordering of the children list and does not affect the accounting
invariants stated below). -/
def runNode (ctx : EngineCtx) (t : TestNode) (rs : RunState) : RunState × List ZestResult :=
  match t with
  | TestNode.node fn skips berr children =>
    let rs1 : RunState := { rs with call_stack := rs.call_stack ++ [fn] }
    let startRec := startRecord fn rs1.call_stack
    if isSkipped ctx fn skips then
      let stopRec := { startRec with is_running := false, skip := some (skips.headD "filtered") }
      let rs2 : RunState :=
        { rs1 with call_stack := rs1.call_stack.dropLast, call_log := rs1.call_log ++ [fn] }
      (rs2, [startRec, stopRec])
    else
      let rsBody : RunState :=
        match berr with
        | none => rs1
        | some e => { rs1 with call_errors := rs1.call_errors ++ [(e, rs1.call_stack)] }
      let p := runChildren ctx children rsBody
      let stopRec := { startRec with is_running := false, error := berr }
      let rs2 : RunState :=
        { p.1 with call_stack := p.1.call_stack.dropLast, call_log := p.1.call_log ++ [fn] }
      (rs2, startRec :: (p.2 ++ [stopRec]))

/-- Modelled from the spec: run a sibling list left to right, threading
the run state and concatenating the emitted records. -/
def runChildren (ctx : EngineCtx) (ts : List TestNode) (rs : RunState) :
    RunState × List ZestResult :=
  match ts with
  | [] => (rs, [])
  | t :: rest =>
    let p := runNode ctx t rs
    let q := runChildren ctx rest p.1
    (q.1, p.2 ++ q.2)
end

/-- Embedding of the per-root loop of ZestRunner.run (zest_runner.py
lines 438 to 462): for each discovered root, assert that the engine
call_stack is empty (line 457) and then run the root through zest.do.
A failing assert is a fatal internal-consistency error, modelled as the
error branch. -/
def runRoots (ctx : EngineCtx) : List TestNode → RunState → Except String RunState
  | [], rs => Except.ok rs
  | t :: rest, rs =>
    if rs.call_stack.length = 0 then runRoots ctx rest (runNode ctx t rs).1
    else Except.error "assert failed: len call_stack == 0"

/-- The runner-side display state touched by ZestRunner.event_test_stop:
the verbosity, the timings accounting list, and the tracked callback
depth. -/
structure RunnerDisplay where
  verbose : Nat
  timings : List (String × Nat)
  callback_depth : Nat
deriving DecidableEq, Repr

/-- Embedding of ZestRunner.event_test_stop (zest_runner.py lines 300 to
314): the handler appends (name, elapsed) to the timings accounting
list twice in a row, then under verbose at least 2 forwards to
display_stop and tracks the callback depth (display output is not
state). -/
def event_test_stop (st : RunnerDisplay) (name : String) (call_stack : List String)
    (elapsed : Nat) : RunnerDisplay :=
  let stA := { st with timings := st.timings ++ [(name, elapsed)] }
  let stB := { stA with timings := stA.timings ++ [(name, elapsed)] }
  if stB.verbose ≥ 2 then { stB with callback_depth := call_stack.length - 1 } else stB

/-- One stop event as delivered to event_test_stop. -/
structure StopEvent where
  name : String
  call_stack : List String
  elapsed : Nat
deriving DecidableEq, Repr

/-- Feed a sequence of stop events through event_test_stop. -/
def run_stop_events (st : RunnerDisplay) : List StopEvent → RunnerDisplay
  | [] => st
  | e :: rest => run_stop_events (event_test_stop st e.name e.call_stack e.elapsed) rest

/-! ### Return codes -/

/-- Embedding of the return code of ZestRunnerSingleThread
(zest_runner_single_thread.py): when discovery already failed the
constructor returns early keeping that retcode (lines 39 to 41);
otherwise line 95 sets retcode to 0 exactly when call_errors is empty.
call_warnings is only displayed (line 93) and has no effect on the
return code. -/
def single_thread_retcode (find_retcode : Nat) (call_errors : List (String × List String))
    (call_warnings : List String) : Nat :=
  let _ := call_warnings
  if find_retcode ≠ 0 then find_retcode
  else if call_errors.isEmpty then 0 else 1

/-- Embedding of the return code of the legacy ZestRunner.run
(zest_runner.py lines 466 to 472): 0 exactly when call_errors is empty,
the structural-authoring error count n_zest_missing_errors is zero and
no stop was requested. -/
def zest_runner_run_retcode (call_errors : List (String × List String))
    (n_zest_missing_errors : Nat) (stop_requested : Bool) : Nat :=
  if call_errors.length = 0 ∧ n_zest_missing_errors = 0 ∧ stop_requested = false then 0 else 1

/-! ### Helper lemmas -/

theorem assocLookup_append_self (m : List (Nat × Nat)) (p n : Nat)
    (h : assocLookup m p = none) : assocLookup (m ++ [(p, n)]) p = some n := by
  induction m with
  | nil => simp [assocLookup]
  | cons a rest ih =>
    cases a with
    | mk a1 a2 =>
      by_cases hp : a1 = p
      · simp [assocLookup, hp] at h
      · simp only [assocLookup, hp, List.cons_append, if_false, if_neg hp] at h ⊢
        exact ih h

theorem assocLookup_append_of_some (m : List (Nat × Nat)) (x : Nat × Nat) (p k : Nat)
    (h : assocLookup m p = some k) : assocLookup (m ++ [x]) p = some k := by
  induction m with
  | nil => simp [assocLookup] at h
  | cons a rest ih =>
    cases a with
    | mk a1 a2 =>
      by_cases hp : a1 = p
      · subst hp
        simp only [assocLookup, if_pos rfl] at h
        simpa [assocLookup] using h
      · simp only [assocLookup, if_neg hp, List.cons_append] at h ⊢
        exact ih h

/-- Normal form of one drain-loop step: handle_result is the update of
the pid map (append on first sighting), of worker_status at the
assigned index, of results (append on stop events only) and of the
callback trace, with the record stamped with its assigned index. -/
theorem handle_result_eq (st : MTState) (r : ZestResult) :
    handle_result st r =
      { st with
        pid_to_worker_i :=
          match assocLookup st.pid_to_worker_i r.pid with
          | none => st.pid_to_worker_i ++ [(r.pid, st.pid_to_worker_i.length)]
          | some _ => st.pid_to_worker_i,
        worker_status := st.worker_status.set (new_worker_index st r)
          (some { r with worker_i := some (new_worker_index st r) }),
        results :=
          if r.is_running then st.results
          else st.results ++ [{ r with worker_i := some (new_worker_index st r) }],
        callback_log :=
          if st.has_callback then
            st.callback_log ++ [{ r with worker_i := some (new_worker_index st r) }]
          else st.callback_log } := by
  unfold handle_result new_worker_index
  cases hlook : assocLookup st.pid_to_worker_i r.pid with
  | none =>
    have hself := assocLookup_append_self st.pid_to_worker_i r.pid
      st.pid_to_worker_i.length hlook
    simp only [hself, Option.getD_some, Option.getD_none]
    by_cases hrun : r.is_running <;> by_cases hcb : st.has_callback <;>
      simp [hrun, hcb]
  | some k =>
    simp only [hlook, Option.getD_some]
    by_cases hrun : r.is_running <;> by_cases hcb : st.has_callback <;>
      simp [hrun, hcb]

theorem handle_result_map_results (st : MTState) (r : ZestResult) :
    (handle_result st r).map_results = st.map_results := by
  rw [handle_result_eq]

theorem drain_map_results (st st1 : MTState) (q : List QItem)
    (h : drain st q = Except.ok st1) : st1.map_results = st.map_results := by
  induction q generalizing st with
  | nil =>
    unfold drain at h
    cases h
    rfl
  | cons it rest ih =>
    cases it with
    | exc e => simp [drain] at h
    | res r =>
      unfold drain at h
      have := ih (handle_result st r) h
      rw [this, handle_result_map_results]

theorem handle_result_preserves_binding (st : MTState) (r : ZestResult) (p k : Nat)
    (h : assocLookup st.pid_to_worker_i p = some k) :
    assocLookup (handle_result st r).pid_to_worker_i p = some k := by
  rw [handle_result_eq]
  cases hlook : assocLookup st.pid_to_worker_i r.pid with
  | none => exact assocLookup_append_of_some _ _ _ _ h
  | some _ => exact h

theorem drain_preserves_binding (st st1 : MTState) (q : List QItem) (p k : Nat)
    (hd : drain st q = Except.ok st1) (h : assocLookup st.pid_to_worker_i p = some k) :
    assocLookup st1.pid_to_worker_i p = some k := by
  induction q generalizing st with
  | nil =>
    unfold drain at hd
    cases hd
    exact h
  | cons it rest ih =>
    cases it with
    | exc e => simp [drain] at hd
    | res r =>
      unfold drain at hd
      exact ih (handle_result st r) hd (handle_result_preserves_binding st r p k h)

/-- A queue item that is a stop event of some worker record. -/
def is_stop_item : QItem → Bool
  | QItem.res r => !r.is_running
  | QItem.exc _ => false

theorem handle_result_has_callback (st : MTState) (r : ZestResult) :
    (handle_result st r).has_callback = st.has_callback := by
  rw [handle_result_eq]

theorem handle_result_callback_log_length (st : MTState) (r : ZestResult) :
    (handle_result st r).callback_log.length
      = st.callback_log.length + (if st.has_callback then 1 else 0) := by
  rw [handle_result_eq]
  by_cases h : st.has_callback <;> simp [h]

theorem handle_result_results_length (st : MTState) (r : ZestResult) :
    (handle_result st r).results.length
      = st.results.length + (if r.is_running then 0 else 1) := by
  rw [handle_result_eq]
  by_cases h : r.is_running <;> simp [h]

/-! ### Concrete states used by witnesses and scenario conjuncts -/

/-- A coordinator state as built by the ZestRunnerMultiThread
constructor of a run with two workers, with a callback supplied and
the starmap handle already reporting ready. -/
def mtScenario : MTState :=
  { pid_to_worker_i := [], worker_status := [none, none], results := [],
    has_callback := true, callback_log := [], map_results := some true,
    pool := true, pool_terminated := false }

/-- A concrete record from a worker process, as emitted for a root. -/
def scenarioRec (fn : String) (running : Bool) (p : Nat) : ZestResult :=
  { full_name := fn, is_running := running, error := none, elapsed := 0,
    skip := none, pid := p, worker_i := none, call_stack := [fn] }

/-- The queue traffic of a two-worker run over three roots: worker pid
11 runs zest_a and then zest_c, worker pid 22 runs zest_b. -/
def scenarioStream : List QItem :=
  [QItem.res (scenarioRec "zest_a" true 11), QItem.res (scenarioRec "zest_b" true 22),
   QItem.res (scenarioRec "zest_a" false 11), QItem.res (scenarioRec "zest_b" false 22),
   QItem.res (scenarioRec "zest_c" true 11), QItem.res (scenarioRec "zest_c" false 11)]

/-! ### Claim theorems -/

/-- C1: ZestRunnerMultiThread.poll reports the run complete (returns
False) exactly when the asynchronous starmap handle exists and reports
all work orders finished and the result queue is empty at the final
check; if either condition fails the poll returns True.  late is the
queue content seen by the final queue.empty check. -/
theorem poll_complete_iff_pool_done_and_queue_empty (st : MTState) (request_stop : Bool)
    (incoming late : List QItem) (st1 : MTState) (b : Bool)
    (h : poll st request_stop incoming late = Except.ok (st1, b)) :
    b = false ↔ (st.map_results = some true ∧ late = []) := by
  simp only [poll] at h
  have hmr0 : (if request_stop ∧ st.pool then { st with pool_terminated := true }
      else st).map_results = st.map_results := by
    split <;> rfl
  cases hd : drain (if request_stop ∧ st.pool then { st with pool_terminated := true } else st)
      incoming with
  | error e => rw [hd] at h; cases h
  | ok stm =>
    rw [hd] at h
    dsimp only at h
    have hmr : stm.map_results = st.map_results := by
      rw [drain_map_results _ _ _ hd, hmr0]
    by_cases hc : stm.map_results = some true ∧ late = []
    · rw [if_pos hc] at h
      simp only [Except.ok.injEq, Prod.mk.injEq] at h
      constructor
      · intro _
        exact ⟨hmr ▸ hc.1, hc.2⟩
      · intro _
        exact h.2.symm
    · rw [if_neg hc] at h
      simp only [Except.ok.injEq, Prod.mk.injEq] at h
      constructor
      · intro hb
        rw [← h.2] at hb
        cases hb
      · intro hcond
        exact absurd ⟨hmr.trans hcond.1, hcond.2⟩ hc

/-- Witness for C1 at a concrete state: an empty queue with the pool
reporting ready yields the completion iff at that input. -/
theorem poll_complete_iff_pool_done_and_queue_empty_witness :
    (false = false) ↔ (mtScenario.map_results = some true ∧ ([] : List QItem) = []) :=
  poll_complete_iff_pool_done_and_queue_empty mtScenario false [] [] mtScenario false rfl

/-- C3: the first record bearing an unseen pid binds that pid to the
next free slot index, which equals the number of distinct pids seen so
far; a record of an already-seen pid leaves the map unchanged and is
assigned the existing index; bindings survive the rest of the drain;
and in the two-worker three-root scenario exactly the two distinct
pids are bound, to slots 0 and 1. -/
theorem coordinator_slot_assignment :
    (∀ st r, assocLookup st.pid_to_worker_i r.pid = none →
      (handle_result st r).pid_to_worker_i
          = st.pid_to_worker_i ++ [(r.pid, st.pid_to_worker_i.length)] ∧
      new_worker_index st r = st.pid_to_worker_i.length) ∧
    (∀ st r k, assocLookup st.pid_to_worker_i r.pid = some k →
      (handle_result st r).pid_to_worker_i = st.pid_to_worker_i ∧
      new_worker_index st r = k) ∧
    (∀ st st1 q p k, drain st q = Except.ok st1 →
      assocLookup st.pid_to_worker_i p = some k →
      assocLookup st1.pid_to_worker_i p = some k) ∧
    (∃ stF, drain mtScenario scenarioStream = Except.ok stF ∧
      stF.pid_to_worker_i = [(11, 0), (22, 1)]) := by
  refine ⟨?_, ?_, ?_, ?_⟩
  · intro st r h
    constructor
    · rw [handle_result_eq]
      simp [h]
    · unfold new_worker_index
      rw [h]
      rfl
  · intro st r k h
    constructor
    · rw [handle_result_eq]
      simp [h]
    · unfold new_worker_index
      rw [h]
      rfl
  · intro st st1 q p k hd h
    exact drain_preserves_binding st st1 q p k hd h
  · exact ⟨_, rfl, by decide⟩

/-- Witness for C3 at a concrete input: the first record of pid 11 in
the scenario state extends the empty map with the binding of pid 11 to
slot 0. -/
theorem coordinator_slot_assignment_witness :
    (handle_result mtScenario (scenarioRec "zest_a" true 11)).pid_to_worker_i
        = mtScenario.pid_to_worker_i
            ++ [((scenarioRec "zest_a" true 11).pid, mtScenario.pid_to_worker_i.length)] ∧
    new_worker_index mtScenario (scenarioRec "zest_a" true 11)
        = mtScenario.pid_to_worker_i.length :=
  coordinator_slot_assignment.1 mtScenario (scenarioRec "zest_a" true 11) rfl

/-- C4: each poll tick drains the whole queue without blocking and, per
dequeued record, stores the stamped record in worker_status at its
assigned slot, appends it to results exactly when it is a stop event,
and hands it to the user callback exactly once; over an exception-free
drain the callback therefore fires once per item and results grows by
the number of stop events. -/
theorem poll_drains_updates_and_calls_back :
    (∀ st r,
      (handle_result st r).worker_status
          = st.worker_status.set (new_worker_index st r)
              (some { r with worker_i := some (new_worker_index st r) }) ∧
      (handle_result st r).results
          = (if r.is_running then st.results
             else st.results ++ [{ r with worker_i := some (new_worker_index st r) }]) ∧
      (st.has_callback = true →
        (handle_result st r).callback_log
            = st.callback_log ++ [{ r with worker_i := some (new_worker_index st r) }]) ∧
      (st.has_callback = false → (handle_result st r).callback_log = st.callback_log)) ∧
    (∀ st stream, (∀ q ∈ stream, ∃ r, q = QItem.res r) →
      ∃ st1, drain st stream = Except.ok st1 ∧
        (st.has_callback = true →
          st1.callback_log.length = st.callback_log.length + stream.length) ∧
        st1.results.length = st.results.length + (stream.filter is_stop_item).length) := by
  constructor
  · intro st r
    refine ⟨?_, ?_, ?_, ?_⟩
    · rw [handle_result_eq]
    · rw [handle_result_eq]
    · intro hcb
      rw [handle_result_eq]
      simp [hcb]
    · intro hcb
      rw [handle_result_eq]
      simp [hcb]
  · intro st stream
    induction stream generalizing st with
    | nil =>
      intro _
      exact ⟨st, rfl, fun _ => by simp, by simp⟩
    | cons it rest ih =>
      intro h
      obtain ⟨r, hr⟩ := h it (List.mem_cons_self it rest)
      subst hr
      obtain ⟨st1, hd, hcb, hres⟩ :=
        ih (handle_result st r) (fun q hq => h q (List.mem_cons_of_mem _ hq))
      refine ⟨st1, by unfold drain; exact hd, ?_, ?_⟩
      · intro hcbst
        have := hcb (by rw [handle_result_has_callback]; exact hcbst)
        rw [this, handle_result_callback_log_length, hcbst]
        simp [Nat.add_assoc, Nat.add_comm 1 rest.length]
      · rw [hres, handle_result_results_length]
        by_cases hrun : r.is_running <;>
          simp [hrun, is_stop_item, List.filter, Nat.add_assoc, Nat.add_comm 1]

/-- Witness for C4 at the concrete scenario: the whole stream drains,
the callback fires six times and results receives the three stop
events. -/
theorem poll_drains_updates_and_calls_back_witness :
    ∃ st1, drain mtScenario scenarioStream = Except.ok st1 ∧
      (mtScenario.has_callback = true →
        st1.callback_log.length = mtScenario.callback_log.length + scenarioStream.length) ∧
      st1.results.length
        = mtScenario.results.length + (scenarioStream.filter is_stop_item).length :=
  poll_drains_updates_and_calls_back.2 mtScenario scenarioStream (by
    intro q hq
    simp only [scenarioStream, List.mem_cons, List.not_mem_nil, or_false] at hq
    rcases hq with h | h | h | h | h | h <;> exact ⟨_, by rw [h]⟩)

theorem drain_append_exc (st : MTState) (pre : List QItem) (e : ExcInfo) (rest : List QItem)
    (h : ∀ q ∈ pre, ∃ r, q = QItem.res r) :
    drain st (pre ++ QItem.exc e :: rest) = Except.error e := by
  induction pre generalizing st with
  | nil => simp [drain]
  | cons it pre ih =>
    obtain ⟨r, hr⟩ := h it (List.mem_cons_self it pre)
    subst hr
    unfold drain
    exact ih (handle_result st r) (fun q hq => h q (List.mem_cons_of_mem _ hq))

/-- C5: a framework-level fault escaping zest.do inside a worker is
enqueued as the exception itself, carrying the attached formatted
traceback, instead of a result record; and the coordinator, on
dequeuing such a sentinel while draining, raises it out of poll (the
run surfaces the wrapped error) instead of continuing. -/
theorem framework_fault_sentinel :
    (∀ root folder ds bs gl fs em e,
      (_do_work_order root folder ds bs gl fs (EngineOutcome.raised em e)).queue_out
        = em.map QItem.res
            ++ [QItem.exc { message := e, formatted := some (format_exception e) }]) ∧
    (∀ st request_stop pre e rest late, (∀ q ∈ pre, ∃ r, q = QItem.res r) →
      poll st request_stop (pre ++ QItem.exc e :: rest) late = Except.error e) := by
  constructor
  · intro root folder ds bs gl fs em e
    rfl
  · intro st rstop pre e rest late h
    simp only [poll]
    rw [drain_append_exc _ pre e rest h]

/-- Witness for C5 at a concrete input: a sentinel at the head of the
queue makes poll raise it. -/
theorem framework_fault_sentinel_witness :
    poll mtScenario false
        ([] ++ QItem.exc { message := "boom", formatted := some (format_exception "boom") } :: [])
        []
      = Except.error { message := "boom", formatted := some (format_exception "boom") } :=
  framework_fault_sentinel.2 mtScenario false []
    { message := "boom", formatted := some (format_exception "boom") } [] []
    (by intro q hq; exact absurd hq (List.not_mem_nil q))

theorem fsGet_fsSet (fs : List (String × List String)) (k : String) (v : List String) :
    fsGet (fsSet fs k v) k = some v := by
  induction fs with
  | nil => simp [fsSet, fsGet]
  | cons a rest ih =>
    cases a with
    | mk k0 v0 =>
      by_cases hk : k0 = k
      · simp [fsSet, fsGet, hk]
      · simp [fsSet, fsGet, hk, ih]

theorem fsGet_fold_append (k : String) (em : List ZestResult) :
    ∀ (fs : List (String × List String)) (acc : List String), fsGet fs k = some acc →
      fsGet (em.foldl (fun a r => fsAppendChunk a k (ZestResult.dumps r ++ "\n")) fs) k
        = some (acc ++ em.map (fun r => ZestResult.dumps r ++ "\n")) := by
  induction em with
  | nil =>
    intro fs acc h
    simpa using h
  | cons r rest ih =>
    intro fs acc h
    have h1 : fsGet (fsAppendChunk fs k (ZestResult.dumps r ++ "\n")) k
        = some (acc ++ [ZestResult.dumps r ++ "\n"]) := by
      unfold fsAppendChunk
      rw [h]
      simpa using fsGet_fsSet fs k _
    rw [List.foldl_cons, ih _ _ h1]
    simp

/-- C2: on each work order the worker installs a fresh engine state for
the given overrides, opens the event log output_folder/root.evt
truncating any stale content, and for every record the engine emits it
both appends the serialized newline-terminated flushed line to that log
and puts the record on the shared result queue, in emission order. -/
theorem do_work_order_resets_truncates_logs_and_enqueues :
    (∀ root folder ds bs gl fs outcome,
      (_do_work_order root folder ds bs gl fs outcome).globals_at_run = zest_reset ds bs ∧
      (_do_work_order root folder ds bs gl fs outcome).file_name
          = folder ++ "/" ++ root ++ ".evt" ∧
      fsGet (_do_work_order root folder ds bs gl fs outcome).fs_out
            (folder ++ "/" ++ root ++ ".evt")
          = some ((emitted_of outcome).map (fun r => ZestResult.dumps r ++ "\n"))) ∧
    (∀ root folder ds bs gl fs em,
      (_do_work_order root folder ds bs gl fs (EngineOutcome.normal em)).queue_out
          = em.map QItem.res) := by
  constructor
  · intro root folder ds bs gl fs outcome
    refine ⟨rfl, rfl, ?_⟩
    simp only [_do_work_order]
    simpa using
      fsGet_fold_append (folder ++ "/" ++ root ++ ".evt") (emitted_of outcome) _ _
        (fsGet_fsSet fs (folder ++ "/" ++ root ++ ".evt") [])
  · intro root folder ds bs gl fs em
    simp [_do_work_order, emitted_of]

/-- C10: on every path through a work order, normal return or engine
fault, the event stream is closed; the fault is enqueued (last queue
item) rather than propagated, and the function returns the last emitted
record, or None when nothing was emitted. -/
theorem do_work_order_closes_and_returns :
    (∀ root folder ds bs gl fs outcome,
      (_do_work_order root folder ds bs gl fs outcome).file_closed = true ∧
      (_do_work_order root folder ds bs gl fs outcome).ret
          = (emitted_of outcome).getLast?) ∧
    (∀ root folder ds bs gl fs em e,
      ((_do_work_order root folder ds bs gl fs (EngineOutcome.raised em e)).queue_out).getLast?
        = some (QItem.exc { message := e, formatted := some (format_exception e) })) := by
  constructor
  · intro root folder ds bs gl fs outcome
    exact ⟨rfl, rfl⟩
  · intro root folder ds bs gl fs em e
    show (em.map QItem.res
        ++ [QItem.exc { message := e, formatted := some (format_exception e) }]).getLast? = _
    simp

/-- C6 counterexample: with discovery succeeding, no call_errors and one
structural-authoring warning recorded, ZestRunnerSingleThread still
returns 0, so the claimed iff (return code 0 only when zero warnings)
fails on the code. -/
theorem single_thread_retcode_warning_counterexample :
    single_thread_retcode 0 [] ["zest_a did not terminate with a call to zest"] = 0 ∧
    (["zest_a did not terminate with a call to zest"] : List String) ≠ [] := by
  constructor
  · rfl
  · simp

/-- C6 amended: the single-thread runner returns 0 exactly when
call_errors is empty, warnings notwithstanding; the legacy ZestRunner
returns 0 exactly when call_errors is empty, the structural-authoring
error count is zero and no stop was requested. -/
theorem retcode_zero_iff_call_errors_empty :
    (∀ ce cw, single_thread_retcode 0 ce cw = 0 ↔ ce = []) ∧
    (∀ ce n s, zest_runner_run_retcode ce n s = 0 ↔ (ce = [] ∧ n = 0 ∧ s = false)) := by
  constructor
  · intro ce cw
    cases ce with
    | nil => simp [single_thread_retcode]
    | cons a t => simp [single_thread_retcode, List.isEmpty]
  · intro ce n s
    constructor
    · intro h0
      by_cases h : ce.length = 0 ∧ n = 0 ∧ s = false
      · exact ⟨List.length_eq_zero.mp h.1, h.2.1, h.2.2⟩
      · unfold zest_runner_run_retcode at h0
        rw [if_neg h] at h0
        cases h0
    · intro h
      obtain ⟨h1, h2, h3⟩ := h
      subst h1
      subst h2
      subst h3
      rfl

/-- C7 counterexample: a malformed line in the middle of an event log
makes read_zest_result_line fail with the decode error instead of
warning, skipping the line and continuing with the next one. -/
theorem read_zest_result_line_malformed_counterexample :
    read_zest_result_line ["zest_a|1|5", "garbage", "zest_b|0|7"]
      = Except.error ("Malformed zest result line: garbage") := rfl

/-- C7 amended: the reader has no malformed-line handling: the first
malformed non-empty line aborts read_zest_result_line with the decode
failure, which propagates to the caller; no warning is recorded and no
line is skipped. -/
theorem read_zest_result_line_error_propagates (pre : List String) (line : String)
    (rest : List String) (msg : String)
    (hpre : ∀ l ∈ pre, l ≠ "" ∧ ∃ r, ZestResult.loads l = Except.ok r)
    (hne : line ≠ "")
    (hline : ZestResult.loads line = Except.error msg) :
    read_zest_result_line (pre ++ line :: rest) = Except.error msg := by
  induction pre with
  | nil =>
    simp only [List.nil_append]
    unfold read_zest_result_line
    rw [if_neg hne, hline]
  | cons l pre ih =>
    obtain ⟨hl, r, hr⟩ := hpre l (List.mem_cons_self l pre)
    simp only [List.cons_append]
    unfold read_zest_result_line
    rw [if_neg hl, hr, ih (fun x hx => hpre x (List.mem_cons_of_mem _ hx))]

/-- Witness for the amended C7 at a concrete input: a single malformed
line aborts the reader. -/
theorem read_zest_result_line_error_propagates_witness :
    read_zest_result_line ([] ++ "junk" :: [])
      = Except.error ("Malformed zest result line: junk") :=
  read_zest_result_line_error_propagates [] "junk" [] ("Malformed zest result line: junk")
    (by intro l hl; exact absurd hl (List.not_mem_nil l)) (by decide) rfl

mutual
theorem runNode_stack (ctx : EngineCtx) (t : TestNode) (rs : RunState) :
    ((runNode ctx t rs).1).call_stack = rs.call_stack := by
  cases t with
  | node fn skips berr children =>
    unfold runNode
    by_cases hskip : isSkipped ctx fn skips
    · simp [hskip, List.dropLast_concat]
    · simp only [hskip, Bool.false_eq_true, if_false, if_neg]
      cases berr with
      | none =>
        simp only []
        rw [runChildren_stack ctx children _]
        exact List.dropLast_concat ..
      | some e =>
        simp only []
        rw [runChildren_stack ctx children _]
        exact List.dropLast_concat ..

theorem runChildren_stack (ctx : EngineCtx) (ts : List TestNode) (rs : RunState) :
    ((runChildren ctx ts rs).1).call_stack = rs.call_stack := by
  cases ts with
  | nil => rfl
  | cons t rest =>
    unfold runChildren
    simp only []
    rw [runChildren_stack ctx rest _, runNode_stack ctx t rs]
end

theorem runRoots_ok (ctx : EngineCtx) (roots : List TestNode) :
    ∀ rs : RunState, rs.call_stack = [] →
      ∃ rs1, runRoots ctx roots rs = Except.ok rs1 ∧ rs1.call_stack = [] := by
  induction roots with
  | nil =>
    intro rs h
    exact ⟨rs, rfl, h⟩
  | cons t rest ih =>
    intro rs h
    unfold runRoots
    rw [if_pos (by rw [h]; rfl)]
    exact ih _ (by rw [runNode_stack]; exact h)

/-- C8: the engine call_stack is balanced: running any root leaves the
stack exactly as found, so from the fresh state installed by zest.reset
it is empty immediately before and immediately after every root; the
per-root assertion at zest_runner.py line 457 that checks this
emptiness therefore always passes (its violation would be the fatal
error branch of runRoots). -/
theorem call_stack_empty_before_and_after_roots :
    (∀ ctx t rs, ((runNode ctx t rs).1).call_stack = rs.call_stack) ∧
    (∀ ctx roots, ∃ rs1, runRoots ctx roots RunState.fresh = Except.ok rs1 ∧
      rs1.call_stack = []) := by
  constructor
  · intro ctx t rs
    exact runNode_stack ctx t rs
  · intro ctx roots
    exact runRoots_ok ctx roots RunState.fresh rfl

/-- The per-stop-event pair of identical accounting entries. -/
def doubled_entries : List StopEvent → List (String × Nat)
  | [] => []
  | e :: rest => (e.name, e.elapsed) :: (e.name, e.elapsed) :: doubled_entries rest

theorem event_test_stop_timings (st : RunnerDisplay) (n : String) (cs : List String)
    (el : Nat) :
    (event_test_stop st n cs el).timings = st.timings ++ [(n, el), (n, el)] := by
  by_cases h : st.verbose ≥ 2 <;> simp [event_test_stop, h]

theorem doubled_entries_length (es : List StopEvent) :
    (doubled_entries es).length = 2 * es.length := by
  induction es with
  | nil => rfl
  | cons e rest ih =>
    simp [doubled_entries, ih]
    ring

/-- C9: ZestRunner.event_test_stop appends the same (name, elapsed)
entry to the run-scoped timings accounting list twice per stop event,
so a run of stop events grows the list by exactly two copies per event
rather than one. -/
theorem event_test_stop_double_append (st : RunnerDisplay) (events : List StopEvent) :
    (run_stop_events st events).timings = st.timings ++ doubled_entries events ∧
    (run_stop_events st events).timings.length = st.timings.length + 2 * events.length := by
  have h : ∀ st2 : RunnerDisplay,
      (run_stop_events st2 events).timings = st2.timings ++ doubled_entries events := by
    induction events with
    | nil =>
      intro st2
      simp [run_stop_events, doubled_entries]
    | cons e rest ih =>
      intro st2
      unfold run_stop_events
      rw [ih, event_test_stop_timings]
      simp [doubled_entries]
  refine ⟨h st, ?_⟩
  rw [h st]
  simp [doubled_entries_length]

end Zest
